import Mathlib

/-!
Verification of the url-saver media archiver (src/server) against its
natural-language specification.

The development shallowly embeds the parts of the Python source the claims
are about:

* `src/server/database/__init__.py` — the job record store (`create_job`,
  `update_job_status`, `update_job_complete`, `update_job_failed`,
  `check_url_archived`).  SQLite rows become `JobRecord`s, the
  `archive_jobs` table becomes a `Store` (list of rows in insertion
  order), and each SQL `UPDATE ... WHERE id = ?` becomes a map over the
  rows.  Timestamps are modelled as integer seconds; `timedelta(days=d)`
  is `d * 86400` seconds and `timedelta.days` is floor division by 86400
  (`Int.fdiv`), matching Python's normalisation of negative timedeltas.
* `src/server/downloaders/__init__.py` and the three handler classes —
  the capability registry (`can_handle` predicates and `get_handler`).
  Python's `str.lower` and substring `in` are modelled character-wise
  (`pyLower`, `strIn`); `Char.toLower` agrees with `str.lower` on the
  ASCII domain/pattern constants involved.
* `src/server/main.py` — the orchestrator `process_download`.  External
  effects (HTTP fetches, file writes that may raise `OSError`) are
  modelled by explicit outcome parameters: `none`/`some errorMessage`
  for a write that succeeds/raises, and a per-image fetch oracle for the
  direct Twitter image path.  Database calls are the store operations
  above; the `try/except` at the orchestrator boundary is modelled by
  matching on the outcome parameters in program order.
-/

/-- Values stored in the free-form metadata maps built by `main.py`
(Python builds `dict`s whose values are strings, ints, bools or lists of
strings). -/
inductive MetaVal
  | str (s : String)
  | int (n : Int)
  | bool (b : Bool)
  | strList (l : List String)
  deriving DecidableEq, Repr

/-- A Python dict with these value kinds, as an association list with
unique keys (builders below construct unique-key lists; `metaMerge`
keeps the right operand's binding on collision, like `{**a, **b}`). -/
abbrev Metadata := List (String × MetaVal)

/-- `m.get(k)` on a metadata dict. -/
def Metadata.getVal (m : Metadata) (k : String) : Option MetaVal :=
  (List.find? (fun kv => kv.1 == k) m).map (·.2)

/-- `{**base, **override}`: keys of `override` win. -/
def metaMerge (base override : Metadata) : Metadata :=
  List.filter (fun kv => (Metadata.getVal override kv.1).isNone) base ++ override

/-- One row of the `archive_jobs` table (`Database._row_to_job_dict`). -/
structure JobRecord where
  id : String
  url : String
  status : String
  pageTitle : Option String
  pageUrl : Option String
  createdAt : Int
  completedAt : Option Int
  filePath : Option String
  fileSize : Option Int
  fileHash : Option String
  metadata : Metadata
  error : Option String
  deriving DecidableEq, Repr

/-- The `archive_jobs` table, rows in insertion order.  (The companion
`media_files` table is out of scope of the claims and not modelled.) -/
abbrev Store := List JobRecord

/-- `SELECT * FROM archive_jobs WHERE id = ?` (first matching row). -/
def Store.getJob (s : Store) (jobId : String) : Option JobRecord :=
  List.find? (fun r => r.id == jobId) s

/-- `Database.create_job`: `INSERT INTO archive_jobs (id, url, status,
page_title, page_url, created_at) VALUES (?, ?, 'pending', ?, ?, ?)`.
`id` is the primary key, so the insert raises on a duplicate; modelled
as leaving the table unchanged in that case (callers always use fresh
UUIDs). -/
def createJob (s : Store) (jobId url : String)
    (pageTitle pageUrl : Option String) (timestamp : Int) : Store :=
  if List.any s (fun r => r.id == jobId) then s
  else s ++ [{ id := jobId, url := url, status := "pending",
               pageTitle := pageTitle, pageUrl := pageUrl,
               createdAt := timestamp, completedAt := none,
               filePath := none, fileSize := none, fileHash := none,
               metadata := [], error := none }]

/-- `Database.update_job_status`: `UPDATE archive_jobs SET status = ?
WHERE id = ?`. -/
def updateJobStatus (s : Store) (jobId status : String) : Store :=
  List.map (fun r => if r.id == jobId then { r with status := status } else r) s

/-- `Database.update_job_complete`: `UPDATE archive_jobs SET status =
'completed', completed_at = ?, file_path = ?, metadata = ? WHERE id = ?`.
The update is unconditional — there is no guard on the current status —
and the `error` column is not touched. -/
def updateJobComplete (s : Store) (jobId : String) (filePath : String)
    (metadata : Metadata) (now : Int) : Store :=
  List.map (fun r =>
    if r.id == jobId then
      { r with status := "completed", completedAt := some now,
               filePath := some filePath, metadata := metadata }
    else r) s

/-- `Database.update_job_failed`: `UPDATE archive_jobs SET status =
'failed', completed_at = ?, error = ? WHERE id = ?`.  Unconditional as
well; the `file_path` column is not touched. -/
def updateJobFailed (s : Store) (jobId error : String) (now : Int) : Store :=
  List.map (fun r =>
    if r.id == jobId then
      { r with status := "failed", completedAt := some now, error := some error }
    else r) s

example :
    (Store.getJob
      (updateJobFailed
        (updateJobComplete (createJob [] "j" "u" none none 0) "j" "f.mp4" [] 5)
        "j" "boom" 9) "j").map (·.status) = some "failed" := by decide

/-! ## Deduplication check (`Database.check_url_archived`) -/

/-- The `WHERE` clause of `check_url_archived`'s query: matching URL,
status `'completed'`, and `created_at >= since_date`. -/
def dedupQualifies (url : String) (sinceDate : Int) (r : JobRecord) : Bool :=
  r.url == url && r.status == "completed" && decide (sinceDate ≤ r.createdAt)

/-- `ORDER BY created_at DESC LIMIT 1`: a row of maximal `created_at`
among the qualifying rows (`none` when no row qualifies; a later row
displaces an earlier one only when strictly more recent, so ties keep
the earlier row — SQLite leaves the order of tied rows unspecified, and
any row of maximal `created_at` satisfies the query). -/
def latestRow : List JobRecord → Option JobRecord
  | [] => none
  | r :: rest =>
      match latestRow rest with
      | none => some r
      | some b => if decide (r.createdAt < b.createdAt) then some b else some r

/-- The dictionary returned by `check_url_archived`: the job row plus
`file_exists`, `verified` and `age_days`. -/
structure CheckResult where
  record : JobRecord
  fileExists : Bool
  verified : Bool
  ageDays : Int
  deriving DecidableEq, Repr

/-- `Database.check_url_archived(url, months)`.  `fs p` models
`Path(p).exists()` — the live filesystem probe.  `since_date` is
`now - timedelta(days=months*30)`; `age_days` is the `.days` of the
timedelta from the record's creation time to now (floor division, as
Python normalises timedeltas).  The method only executes `SELECT`
statements; see `runCheckUrlArchived` for the store-passing form. -/
def checkUrlArchived (s : Store) (fs : String → Bool) (url : String)
    (months : Int) (now : Int) : Option CheckResult :=
  let sinceDate := now - months * 30 * 86400
  match latestRow (List.filter (dedupQualifies url sinceDate) s) with
  | none => none
  | some row =>
      let fileExists := match row.filePath with
        | some p => fs p
        | none => false
      some { record := row, fileExists := fileExists, verified := fileExists,
             ageDays := (now - row.createdAt).fdiv 86400 }

/-- `check_url_archived` as a state-passing database call: it returns
its result and the (unchanged) table, since the method's body contains
no `INSERT`/`UPDATE`/`DELETE`. -/
def runCheckUrlArchived (s : Store) (fs : String → Bool) (url : String)
    (months : Int) (now : Int) : Option CheckResult × Store :=
  (checkUrlArchived s fs url months now, s)

/-! ## Handler capability registry (`src/server/downloaders/`) -/

/-- Python `str.lower()`.  `Char.toLower` lower-cases exactly the ASCII
range, which agrees with Python on every character of the ASCII
domain/pattern constants tested below. -/
def pyLower (s : String) : String := String.mk (List.map Char.toLower s.data)

/-- Substring test on character lists (`needle in haystack` for Python
strings): some suffix of the haystack starts with the needle. -/
def substrAux (needle : List Char) : List Char → Bool
  | [] => List.isEmpty needle
  | c :: rest => List.isPrefixOf needle (c :: rest) || substrAux needle rest

/-- Python's `needle in haystack` on strings. -/
def strIn (needle haystack : String) : Bool := substrAux needle.data haystack.data

namespace DezoomifyHandler

/-- `DezoomifyHandler.SUPPORTED_DOMAINS`. -/
def SUPPORTED_DOMAINS : List String :=
  ["artsandculture.google.com", "iiif.io", "wellcomecollection.org",
   "davidrumsey.com", "gallica.bnf.fr", "digitalcollections.nypl.org",
   "loc.gov", "europeana.eu", "digi.ub.uni-heidelberg.de",
   "e-codices.unifr.ch"]

/-- `DezoomifyHandler.ZOOMABLE_PATTERNS`. -/
def ZOOMABLE_PATTERNS : List String :=
  ["/iiif/", "/info.json", "/ImageProperties.xml", "/deepzoom",
   "/zoomify", "/dzc/", "/dzi/"]

/-- `DezoomifyHandler.can_handle`.  `installed` models
`self.dezoomify_path` being non-`None` (`shutil.which('dezoomify-rs')`
found the binary at construction time); the source returns `False`
immediately when the tool is missing. -/
def canHandle (installed : Bool) (url : String) : Bool :=
  if !installed then false
  else
    let urlLower := pyLower url
    List.any SUPPORTED_DOMAINS (fun d => strIn d urlLower) ||
    List.any ZOOMABLE_PATTERNS (fun p => strIn p urlLower)

end DezoomifyHandler

namespace GalleryDlHandler

/-- `GalleryDlHandler.SUPPORTED_DOMAINS`. -/
def SUPPORTED_DOMAINS : List String :=
  ["flickr.com", "pixiv.net", "artstation.com", "deviantart.com",
   "tumblr.com", "pinterest.com", "danbooru.donmai.us", "gelbooru.com",
   "instagram.com", "twitter.com", "x.com", "reddit.com", "imgur.com",
   "behance.net", "unsplash.com", "pexels.com", "500px.com", "weibo.com",
   "mangadex.org", "nhentai.net", "rule34.xxx", "safebooru.org"]

/-- The `gallery_patterns` list inside `GalleryDlHandler.can_handle`. -/
def galleryPatterns : List String :=
  ["/gallery/", "/album/", "/collection/", "/portfolio/", "/user/",
   "/artist/"]

/-- `GalleryDlHandler.can_handle`.  The `installed` parameter records
whether the external `gallery_dl` module is importable in the server's
environment; the source predicate never consults any availability state
(the class performs no tool check anywhere), so the parameter is unused
— which is exactly what claim C6 is about. -/
def canHandle (installed : Bool) (url : String) : Bool :=
  let _ := installed
  let urlLower := pyLower url
  if List.any SUPPORTED_DOMAINS (fun d => strIn d urlLower) then true
  else List.any galleryPatterns (fun p => strIn p urlLower)

end GalleryDlHandler

namespace YtDlpHandler

/-- `YtDlpHandler.SUPPORTED_DOMAINS`. -/
def SUPPORTED_DOMAINS : List String :=
  ["youtube.com", "youtu.be", "twitter.com", "x.com", "instagram.com",
   "tiktok.com", "vimeo.com", "twitch.tv", "reddit.com", "facebook.com",
   "dailymotion.com", "soundcloud.com", "bandcamp.com"]

/-- `YtDlpHandler.EXCLUDED_DOMAINS`. -/
def EXCLUDED_DOMAINS : List String :=
  ["flickr.com", "pixiv.net", "artstation.com", "deviantart.com",
   "tumblr.com", "pinterest.com", "danbooru.donmai.us", "gelbooru.com"]

/-- `YtDlpHandler.can_handle`: exclusions first, then known domains,
then `return True` for everything else (yt-dlp supports 1000+ sites).
The `yt_dlp` library is a hard import of the module — the server does
not start without it — so there is no availability parameter. -/
def canHandle (url : String) : Bool :=
  let urlLower := pyLower url
  if List.any EXCLUDED_DOMAINS (fun e => strIn e urlLower) then false
  else if List.any SUPPORTED_DOMAINS (fun d => strIn d urlLower) then true
  else true

end YtDlpHandler

/-- The three handlers, in the registration order of
`DownloadManager.__init__`. -/
inductive HandlerTag
  | dezoomify
  | galleryDl
  | ytDlp
  deriving DecidableEq, Repr

/-- `DownloadManager.get_handler`: iterate the handler list in order and
return the first whose `can_handle(url)` is true; if none claims the
URL, `return self.handlers[-1]`, i.e. the yt-dlp handler.
`dezInstalled`/`galInstalled` model the availability of the two external
tools (see the `canHandle` doc comments). -/
def getHandler (dezInstalled galInstalled : Bool) (url : String) : HandlerTag :=
  if DezoomifyHandler.canHandle dezInstalled url then .dezoomify
  else if GalleryDlHandler.canHandle galInstalled url then .galleryDl
  else if YtDlpHandler.canHandle url then .ytDlp
  else .ytDlp

example : getHandler true true "https://example.org/iiif/image/info.json" = .dezoomify := by decide
example : getHandler true true "https://www.flickr.com/photos/user/123" = .galleryDl := by decide
example : getHandler true true "https://www.youtube.com/watch?v=abc" = .ytDlp := by decide
example : getHandler false true "https://example.org/iiif/image/info.json" = .ytDlp := by decide
example : YtDlpHandler.canHandle "https://www.flickr.com/photos/user/1" = false := by decide
example : getHandler true true "https://www.flickr.com/photos/user/1" = .galleryDl := by decide

/-! ## Orchestrator (`process_download` in `src/server/main.py`)

External effects are modelled by explicit outcome parameters:

* `fetch i` — the outcome of the `client.get` for the `i`-th image URL
  (1-based, as `enumerate(image_urls, 1)`): `some contentType` when the
  request and `raise_for_status` succeed, `none` when they raise (the
  per-image `except` logs and continues).
* `sidecarWriteErr` / `jsonWriteErr` / `indexWriteErr` — `some msg` when
  the corresponding filesystem write (`md_path.write_text`,
  `metadata_path.write_text`, the `index.md` read/write in
  `append_to_index`) raises with `str(e) = msg`, `none` when it
  succeeds.  `decode_and_save_screenshot` and `storage.save_metadata`
  catch their own exceptions and return a value, so they need no
  outcome parameter.

Database calls are the store operations defined above; the single
`try/except` wrapping the whole body of `process_download` is modelled
by the explicit control flow below: the first raising step jumps to
`update_job_failed`. -/

/-- `save_mode` of a request (`Literal["full", "quick", "text"]`). -/
inductive SaveMode
  | full
  | quick
  | text
  deriving DecidableEq, Repr

def SaveMode.toStr : SaveMode → String
  | .full => "full"
  | .quick => "quick"
  | .text => "text"

/-- The content-type → extension chain of `download_twitter_images`. -/
def extFromContentType (ct : String) : String :=
  if strIn "jpeg" ct || strIn "jpg" ct then ".jpg"
  else if strIn "png" ct then ".png"
  else if strIn "gif" ct then ".gif"
  else if strIn "webp" ct then ".webp"
  else ".jpg"

/-- Filename for the `i`-th Twitter image: indexed only when the tweet
has more than one image. -/
def twitterImageFilename (basename : String) (total i : Nat) (ext : String) : String :=
  if total > 1 then basename ++ "-" ++ toString i ++ ext
  else basename ++ ext

/-- `download_twitter_images`: iterate over `image_urls` with 1-based
indices; a fetch that raises is logged and skipped, a fetch that
succeeds contributes one file, named from the response content type.
Returns the list of downloaded file paths in order. -/
def downloadTwitterImages (imageUrls : List String) (fetch : Nat → Option String)
    (basename : String) : List String :=
  List.filterMap
    (fun k =>
      (fetch (k + 1)).map
        (fun ct => twitterImageFilename basename imageUrls.length (k + 1)
          (extFromContentType ct)))
    (List.range imageUrls.length)

/-- The metadata dict built in the Twitter-image branch of
`process_download` (lines 555–564). -/
def twitterImageMetadata (url downloadDate : String) (saveMode : SaveMode)
    (title platform : String) (files : List String) : Metadata :=
  [("original_url", .str url), ("download_date", .str downloadDate),
   ("downloader", .str "direct-http"), ("save_mode", .str saveMode.toStr),
   ("title", .str title), ("platform", .str platform),
   ("media_count", .int files.length), ("files", .strList files)]

/-- The Twitter image-only branch of `process_download` (reached in
full/quick mode when `platform == 'twitter'`, `imageUrls` is non-empty
and no video/GIF is indicated), lines 525–573, plus the shared epilogue:
`append_to_index` (line 674) and the outer `except` that converts any
raised exception into `update_job_failed` (lines 683–685). -/
def processTwitterImageBranch (s : Store)
    (jobId url basename title platform downloadDate : String)
    (saveMode : SaveMode) (imageUrls : List String)
    (fetch : Nat → Option String)
    (sidecarWriteErr indexWriteErr : Option String) (now : Int) : Store :=
  let s1 := updateJobStatus s jobId "downloading"
  match downloadTwitterImages imageUrls fetch basename with
  | [] =>
      -- `raise ValueError("Failed to download Twitter images")`
      updateJobFailed s1 jobId "Failed to download Twitter images" now
  | f0 :: rest =>
      -- full mode: screenshot save never raises; the sidecar's
      -- `md_path.write_text` may
      if saveMode == .full && sidecarWriteErr.isSome then
        updateJobFailed s1 jobId (sidecarWriteErr.getD "") now
      else
        let md := twitterImageMetadata url downloadDate saveMode title platform (f0 :: rest)
        let s2 := updateJobComplete s1 jobId f0 md now
        match indexWriteErr with
        | none => s2
        | some e => updateJobFailed s2 jobId e now

/-- Result record returned by a handler's `download`
(`downloaders/base.py`, dataclass `DownloadResult`). -/
structure DownloadResult where
  filePath : Option String
  metadata : Metadata
  success : Bool
  error : Option String
  deriving DecidableEq, Repr

/-- `if result.metadata.get('title'): title = result.metadata['title']`
— every handler stores `title` as a string, and a non-empty string is
the truthy case. -/
def titleFromResult (md : Metadata) (fallbackTitle : String) : String :=
  match md.getVal "title" with
  | some (.str t) => if t == "" then fallbackTitle else t
  | _ => fallbackTitle

/-- The base metadata dict of the routed-handler branch (lines 604–612),
before `**result.metadata` is merged over it. -/
def routedBaseMetadata (url downloadDate handlerName : String) (saveMode : SaveMode)
    (title platform : String) : Metadata :=
  [("original_url", .str url), ("download_date", .str downloadDate),
   ("downloader", .str handlerName), ("save_mode", .str saveMode.toStr),
   ("title", .str title), ("platform", .str platform)]

/-- The metadata dict of the screenshot-fallback path (lines 652–660). -/
def fallbackMetadata (url downloadDate : String) (saveMode : SaveMode)
    (title platform : String) : Metadata :=
  [("original_url", .str url), ("download_date", .str downloadDate),
   ("save_mode", .str saveMode.toStr), ("title", .str title),
   ("platform", .str platform), ("fallback", .bool true),
   ("reason", .str "no_media_found")]

/-- The routed-handler branch of `process_download` (lines 575–671) plus
the shared epilogue (`append_to_index`, line 674) and the outer `except`
(lines 683–685).  `title0` is `page_title or "Untitled"`;
`hasScreenshot` whether the request carried a context snapshot;
`result` the handler's `DownloadResult`.  The Twitter/gallery-dl sidecar
(`create_twitter_sidecar`) may raise (`sidecarWriteErr`); the non-Twitter
`storage.save_metadata` catches internally and never raises. -/
def processRoutedBranch (s : Store)
    (jobId url basename title0 platform handlerName downloadDate : String)
    (saveMode : SaveMode) (hasScreenshot : Bool) (result : DownloadResult)
    (sidecarWriteErr jsonWriteErr indexWriteErr : Option String) (now : Int) : Store :=
  let s1 := updateJobStatus s jobId "downloading"
  match result.filePath with
  | some fp =>
      let title := titleFromResult result.metadata title0
      let md := metaMerge
        (routedBaseMetadata url downloadDate handlerName saveMode title platform)
        result.metadata
      if saveMode == .full && platform == "twitter" && handlerName == "gallery-dl"
          && sidecarWriteErr.isSome then
        updateJobFailed s1 jobId (sidecarWriteErr.getD "") now
      else
        let s2 := updateJobComplete s1 jobId fp md now
        match indexWriteErr with
        | none => s2
        | some e => updateJobFailed s2 jobId e now
  | none =>
      if hasScreenshot then
        -- screenshot decode never raises; `metadata_path.write_text` may
        match jsonWriteErr with
        | some e => updateJobFailed s1 jobId e now
        | none =>
            let finalPath := basename ++ ".context.png"
            let md := fallbackMetadata url downloadDate saveMode title0 platform
            let s2 := updateJobComplete s1 jobId finalPath md now
            match indexWriteErr with
            | none => s2
            | some e => updateJobFailed s2 jobId e now
      else
        -- `raise ValueError("Download failed and no screenshot available")`
        updateJobFailed s1 jobId "Download failed and no screenshot available" now

/-! ## yt-dlp handler recovery path (`ytdlp_handler.py`) -/

/-- A media file found on disk by the recovery glob: its path and its
`st_mtime`. -/
structure DiskFile where
  path : String
  mtime : Int
  deriving DecidableEq, Repr

/-- `media_files.sort(key=mtime, reverse=True)` then `[0]`: the file
with maximal mtime (Python's stable sort keeps the earliest-listed
among ties). -/
def newestFile (f0 : DiskFile) (rest : List DiskFile) : DiskFile :=
  List.foldl (fun best f => if decide (best.mtime < f.mtime) then f else best) f0 rest

/-- `Path(p).stem` for the ordinary `dir/name.ext` paths produced here:
the final path component without its last extension. -/
def pyStem (p : String) : String :=
  let name := List.reverse (List.takeWhile (fun c => c != '/') (List.reverse p.data))
  let afterDot := List.drop 1 (List.dropWhile (fun c => c != '.') (List.reverse name))
  String.mk (if afterDot.isEmpty then name else List.reverse afterDot)

/-- The `except` branch of `YtDlpHandler._download_sync` (lines
234–251): when the download body raises with message `e`, glob the
output directory for non-empty media files; if any are found, return a
*successful* result whose file is the newest such file and whose
metadata records the error under `error_note`; otherwise re-raise. -/
def ytdlpRecover (e : String) (diskMedia : List DiskFile) : Option DownloadResult :=
  match diskMedia with
  | [] => none
  | f0 :: rest =>
      let actualPath := newestFile f0 rest
      some { filePath := some actualPath.path,
             metadata := [("title", .str (pyStem actualPath.path)),
                          ("error_note", .str e)],
             success := true, error := none }

/-- `_download_sync` with the body of its `try` abstracted by its
outcome: `.ok r` when `extract_info` and the file lookup succeed
producing `r`, `.error e` when the body raises with message `e`. -/
def ytdlpDownloadSync (primary : Except String DownloadResult)
    (diskMedia : List DiskFile) : Except String DownloadResult :=
  match primary with
  | .ok r => .ok r
  | .error e =>
      match ytdlpRecover e diskMedia with
      | some r => .ok r
      | none => .error e

/-- `YtDlpHandler.download` (lines 156–181): run `_download_sync`; a
propagated exception is caught and converted into a failure result. -/
def ytdlpDownload (primary : Except String DownloadResult)
    (diskMedia : List DiskFile) : DownloadResult :=
  match ytdlpDownloadSync primary diskMedia with
  | .ok r => r
  | .error e => { filePath := none, metadata := [], success := false, error := some e }

/-! ## Store-operation histories

For the mutual-exclusivity invariant we consider arbitrary sequences of
the store's mutating operations (`create_job`, `update_job_status`,
`update_job_complete`, `update_job_failed`) applied in order to an
initially empty table. -/

/-- One mutating call on the job record store. -/
inductive DbOp
  | create (jobId url : String) (pageTitle pageUrl : Option String) (t : Int)
  | setStatus (jobId status : String)
  | complete (jobId filePath : String) (md : Metadata) (t : Int)
  | fail (jobId error : String) (t : Int)
  deriving DecidableEq

/-- Apply one store operation. -/
def applyOp (s : Store) : DbOp → Store
  | .create jobId url pageTitle pageUrl t => createJob s jobId url pageTitle pageUrl t
  | .setStatus jobId status => updateJobStatus s jobId status
  | .complete jobId filePath md t => updateJobComplete s jobId filePath md t
  | .fail jobId error t => updateJobFailed s jobId error t

/-- Apply a sequence of store operations in order. -/
def applyOps (ops : List DbOp) (s : Store) : Store :=
  List.foldl applyOp s ops

/-- Whether `op` is an `update_job_complete` on job `jobId`. -/
def isCompleteFor (op : DbOp) (jobId : String) : Bool :=
  match op with
  | .complete j _ _ _ => j == jobId
  | _ => false

/-- Whether `op` is an `update_job_failed` on job `jobId`. -/
def isFailFor (op : DbOp) (jobId : String) : Bool :=
  match op with
  | .fail j _ _ => j == jobId
  | _ => false

/-- The history contains an `update_job_complete` for `jobId`. -/
def hasCompleteOp (ops : List DbOp) (jobId : String) : Bool :=
  List.any ops (isCompleteFor · jobId)

/-- The history contains an `update_job_failed` for `jobId`. -/
def hasFailOp (ops : List DbOp) (jobId : String) : Bool :=
  List.any ops (isFailFor · jobId)

/-- `update_job_status` is used only with non-terminal statuses (as the
orchestrator does: its sole call passes `"downloading"`). -/
def nonTerminalStatuses (ops : List DbOp) : Bool :=
  List.all ops fun op =>
    match op with
    | .setStatus _ st => !(st == "completed") && !(st == "failed")
    | _ => true

/-- Each job receives at most one terminal write: no job gets both an
`update_job_complete` and an `update_job_failed`. -/
def atMostOneTerminalPerJob (ops : List DbOp) : Bool :=
  List.all ops fun op =>
    match op with
    | .complete j _ _ _ => !(hasFailOp ops j)
    | .fail j _ _ => !(hasCompleteOp ops j)
    | _ => true

/-! ## Concrete fixtures used by witnesses and counterexamples -/

/-- A filesystem on which every probed path exists. -/
def fsAllExist : String → Bool := fun _ => true

/-- A filesystem on which no probed path exists (stale records). -/
def fsNoneExist : String → Bool := fun _ => false

/-- A fetch oracle for a three-image tweet whose second image request
raises; the others return a JPEG. -/
def fetchSecondImageDown : Nat → Option String :=
  fun k => if k == 2 then none else some "image/jpeg"

/-- A fetch oracle under which every image request raises. -/
def fetchAllDown : Nat → Option String := fun _ => none

/-! ## Supporting lemmas -/

theorem getJob_map_update (s : Store) (jobId : String) (f : JobRecord → JobRecord)
    (hf : ∀ r, (f r).id = r.id) :
    Store.getJob (List.map (fun r => if r.id == jobId then f r else r) s) jobId
      = (Store.getJob s jobId).map f := by
  induction s with
  | nil => rfl
  | cons r rest ih =>
      by_cases h : r.id == jobId
      · have hfr : ((f r).id == jobId) = true := by rw [hf r]; exact h
        simp [Store.getJob, List.find?, h, hfr]
      · have h' : (r.id == jobId) = false := by simpa using h
        simp only [Store.getJob] at ih ⊢
        simp only [List.map, List.find?, h', Bool.false_eq_true, if_false]
        exact ih

theorem getJob_updateJobStatus (s : Store) (jobId status : String) :
    Store.getJob (updateJobStatus s jobId status) jobId
      = (Store.getJob s jobId).map (fun r => { r with status := status }) :=
  getJob_map_update s jobId _ (fun _ => rfl)

theorem getJob_updateJobComplete (s : Store) (jobId fp : String) (md : Metadata) (t : Int) :
    Store.getJob (updateJobComplete s jobId fp md t) jobId
      = (Store.getJob s jobId).map
          (fun r => { r with status := "completed", completedAt := some t,
                             filePath := some fp, metadata := md }) :=
  getJob_map_update s jobId _ (fun _ => rfl)

theorem getJob_updateJobFailed (s : Store) (jobId e : String) (t : Int) :
    Store.getJob (updateJobFailed s jobId e t) jobId
      = (Store.getJob s jobId).map
          (fun r => { r with status := "failed", completedAt := some t,
                             error := some e }) :=
  getJob_map_update s jobId _ (fun _ => rfl)

theorem latestRow_eq_none_iff (rows : List JobRecord) :
    latestRow rows = none ↔ rows = [] := by
  cases rows with
  | nil => simp [latestRow]
  | cons r rest =>
      simp only [latestRow]
      cases latestRow rest with
      | none => simp
      | some b => by_cases h : r.createdAt < b.createdAt <;> simp [h]

theorem latestRow_mem : ∀ (rows : List JobRecord) (b : JobRecord),
    latestRow rows = some b → b ∈ rows := by
  intro rows
  induction rows with
  | nil => intro b h; simp [latestRow] at h
  | cons r rest ih =>
      intro b h
      simp only [latestRow] at h
      cases hr : latestRow rest with
      | none =>
          rw [hr] at h
          simp at h
          simp [h]
      | some c =>
          rw [hr] at h
          by_cases hlt : r.createdAt < c.createdAt
          · simp [hlt] at h
            subst h
            exact List.mem_cons_of_mem _ (ih c hr)
          · simp [hlt] at h
            simp [h]

theorem latestRow_le : ∀ (rows : List JobRecord) (b : JobRecord),
    latestRow rows = some b → ∀ r ∈ rows, r.createdAt ≤ b.createdAt := by
  intro rows
  induction rows with
  | nil => simp
  | cons r rest ih =>
      intro b h x hx
      simp only [latestRow] at h
      cases hr : latestRow rest with
      | none =>
          rw [hr] at h
          simp at h
          subst h
          have hrest : rest = [] := (latestRow_eq_none_iff rest).mp hr
          subst hrest
          simp at hx
          simp [hx]
      | some c =>
          rw [hr] at h
          by_cases hlt : r.createdAt < c.createdAt
          · simp [hlt] at h
            subst h
            rcases List.mem_cons.mp hx with rfl | hx'
            · exact le_of_lt hlt
            · exact ih c hr x hx'
          · simp [hlt] at h
            subst h
            rcases List.mem_cons.mp hx with rfl | hx'
            · exact le_refl _
            · exact le_trans (ih c hr x hx') (not_lt.mp hlt)

theorem dedupQualifies_iff (url : String) (sinceDate : Int) (r : JobRecord) :
    dedupQualifies url sinceDate r = true
      ↔ r.url = url ∧ r.status = "completed" ∧ sinceDate ≤ r.createdAt := by
  simp [dedupQualifies, and_assoc]

theorem getVal_cons (kv : String × MetaVal) (m : Metadata) (k : String) :
    Metadata.getVal (kv :: m) k
      = if kv.1 == k then some kv.2 else Metadata.getVal m k := by
  unfold Metadata.getVal
  cases h : (kv.1 == k) <;> simp [List.find?, h]

theorem getVal_metaMerge_of_mem (base override : Metadata) (k : String) (v : MetaVal)
    (h : Metadata.getVal override k = some v) :
    Metadata.getVal (metaMerge base override) k = some v := by
  induction base with
  | nil => simpa [metaMerge, List.filter] using h
  | cons kv rest ih =>
      unfold metaMerge at ih ⊢
      simp only [List.filter]
      cases hcond : (Metadata.getVal override kv.1).isNone with
      | false => simpa [hcond] using ih
      | true =>
          have hk : (kv.1 == k) = false := by
            apply Bool.eq_false_iff.mpr
            intro hbeq
            have hkk : kv.1 = k := by simpa using hbeq
            rw [hkk, h] at hcond
            simp at hcond
          simpa [hcond, List.cons_append, getVal_cons, hk] using ih

/-! ## The field invariant along operation histories -/

/-- Goodness of a single status write: `update_job_status` is not used
to enter a terminal state (the orchestrator's only call uses
`"downloading"`). -/
def goodOp : DbOp → Prop
  | .setStatus _ st => st ≠ "completed" ∧ st ≠ "failed"
  | _ => True

/-- The invariant carried through a history: `hc id` / `hf id` says an
`update_job_complete` / `update_job_failed` for `id` has already been
applied.  A record's `file_path` (resp. `error`) is only ever written by
`update_job_complete` (resp. `update_job_failed`), and a terminal status
can only come from the corresponding terminal write when `setStatus` is
used with non-terminal statuses. -/
def StoreInv (hc hf : String → Prop) (s : Store) : Prop :=
  ∀ r ∈ s,
    (¬ hc r.id → r.filePath = none) ∧
    (¬ hf r.id → r.error = none) ∧
    (r.status = "completed" → hc r.id) ∧
    (r.status = "failed" → hf r.id)

theorem storeInv_mono {hc hf hc' hf' : String → Prop} {s : Store}
    (h : StoreInv hc hf s)
    (hcc : ∀ id, hc id → hc' id) (hff : ∀ id, hf id → hf' id) :
    StoreInv hc' hf' s := by
  intro r hr
  obtain ⟨h1, h2, h3, h4⟩ := h r hr
  exact ⟨fun hn => h1 (fun hx => hn (hcc _ hx)),
         fun hn => h2 (fun hx => hn (hff _ hx)),
         fun hs => hcc _ (h3 hs),
         fun hs => hff _ (h4 hs)⟩

theorem storeInv_applyOp {hc hf : String → Prop} {s : Store} (op : DbOp)
    (hop : goodOp op) (h : StoreInv hc hf s) :
    StoreInv (fun id => hc id ∨ isCompleteFor op id = true)
             (fun id => hf id ∨ isFailFor op id = true)
             (applyOp s op) := by
  cases op with
  | create jobId url pageTitle pageUrl t =>
      intro r hr
      simp only [applyOp, createJob] at hr
      by_cases hdup : List.any s (fun r => r.id == jobId)
      · rw [if_pos hdup] at hr
        exact storeInv_mono h (fun _ => Or.inl) (fun _ => Or.inl) r hr
      · rw [if_neg hdup] at hr
        rcases List.mem_append.mp hr with hr' | hr'
        · exact storeInv_mono h (fun _ => Or.inl) (fun _ => Or.inl) r hr'
        · simp at hr'
          subst hr'
          refine ⟨fun _ => rfl, fun _ => rfl, fun hs => ?_, fun hs => ?_⟩
          · simp at hs
          · simp at hs
  | setStatus jobId st =>
      intro r hr
      simp only [applyOp, updateJobStatus] at hr
      rcases List.mem_map.mp hr with ⟨r0, hr0, hval⟩
      obtain ⟨h1, h2, h3, h4⟩ := h r0 hr0
      by_cases hid : (r0.id == jobId) = true
      · rw [if_pos hid] at hval
        subst hval
        refine ⟨fun hn => h1 (fun hx => hn (Or.inl hx)),
                fun hn => h2 (fun hx => hn (Or.inl hx)), fun hs => ?_, fun hs => ?_⟩
        · exact absurd hs hop.1
        · exact absurd hs hop.2
      · rw [if_neg hid] at hval
        subst hval
        exact ⟨fun hn => h1 (fun hx => hn (Or.inl hx)),
               fun hn => h2 (fun hx => hn (Or.inl hx)),
               fun hs => Or.inl (h3 hs), fun hs => Or.inl (h4 hs)⟩
  | complete jobId fp md t =>
      intro r hr
      simp only [applyOp, updateJobComplete] at hr
      rcases List.mem_map.mp hr with ⟨r0, hr0, hval⟩
      obtain ⟨h1, h2, h3, h4⟩ := h r0 hr0
      by_cases hid : (r0.id == jobId) = true
      · rw [if_pos hid] at hval
        subst hval
        refine ⟨fun hn => absurd (Or.inr ?_) hn,
                fun hn => h2 (fun hx => hn (Or.inl hx)),
                fun _ => Or.inr ?_, fun hs => ?_⟩
        · have hid2 : r0.id = jobId := by simpa using hid
          simp [isCompleteFor, hid2]
        · have hid2 : r0.id = jobId := by simpa using hid
          simp [isCompleteFor, hid2]
        · simp at hs
      · rw [if_neg hid] at hval
        subst hval
        exact ⟨fun hn => h1 (fun hx => hn (Or.inl hx)),
               fun hn => h2 (fun hx => hn (Or.inl hx)),
               fun hs => Or.inl (h3 hs), fun hs => Or.inl (h4 hs)⟩
  | fail jobId e t =>
      intro r hr
      simp only [applyOp, updateJobFailed] at hr
      rcases List.mem_map.mp hr with ⟨r0, hr0, hval⟩
      obtain ⟨h1, h2, h3, h4⟩ := h r0 hr0
      by_cases hid : (r0.id == jobId) = true
      · rw [if_pos hid] at hval
        subst hval
        refine ⟨fun hn => h1 (fun hx => hn (Or.inl hx)),
                fun hn => absurd (Or.inr ?_) hn,
                fun hs => ?_, fun _ => Or.inr ?_⟩
        · have hid2 : r0.id = jobId := by simpa using hid
          simp [isFailFor, hid2]
        · simp at hs
        · have hid2 : r0.id = jobId := by simpa using hid
          simp [isFailFor, hid2]
      · rw [if_neg hid] at hval
        subst hval
        exact ⟨fun hn => h1 (fun hx => hn (Or.inl hx)),
               fun hn => h2 (fun hx => hn (Or.inl hx)),
               fun hs => Or.inl (h3 hs), fun hs => Or.inl (h4 hs)⟩

theorem storeInv_applyOps {hc hf : String → Prop} {s : Store} (ops : List DbOp)
    (hops : ∀ op ∈ ops, goodOp op) (h : StoreInv hc hf s) :
    StoreInv (fun id => hc id ∨ hasCompleteOp ops id = true)
             (fun id => hf id ∨ hasFailOp ops id = true)
             (applyOps ops s) := by
  induction ops generalizing hc hf s with
  | nil =>
      refine storeInv_mono h (fun id hx => Or.inl hx) (fun id hx => Or.inl hx)
  | cons op rest ih =>
      have hstep := storeInv_applyOp op (hops op (List.mem_cons_self _ _)) h
      have hrest := ih (fun o ho => hops o (List.mem_cons_of_mem _ ho)) hstep
      refine storeInv_mono hrest (fun id hx => ?_) (fun id hx => ?_)
      · rcases hx with (hx | hx) | hx
        · exact Or.inl hx
        · exact Or.inr (by simp [hasCompleteOp, List.any_cons, hx])
        · exact Or.inr (by simp [hasCompleteOp, List.any_cons] at hx ⊢; exact Or.inr hx)
      · rcases hx with (hx | hx) | hx
        · exact Or.inl hx
        · exact Or.inr (by simp [hasFailOp, List.any_cons, hx])
        · exact Or.inr (by simp [hasFailOp, List.any_cons] at hx ⊢; exact Or.inr hx)

theorem nonTerminal_goodOp {ops : List DbOp} (h : nonTerminalStatuses ops = true) :
    ∀ op ∈ ops, goodOp op := by
  intro op hop
  have := List.all_eq_true.mp h op hop
  cases op with
  | setStatus jobId st =>
      simp only [goodOp]
      constructor <;> intro hst <;> subst hst <;> simp at this
  | create _ _ _ _ _ => trivial
  | complete _ _ _ _ => trivial
  | fail _ _ _ => trivial

theorem atMostOne_not_both {ops : List DbOp} (h : atMostOneTerminalPerJob ops = true) :
    ∀ id, ¬(hasCompleteOp ops id = true ∧ hasFailOp ops id = true) := by
  intro id ⟨hcge, hfge⟩
  rcases List.any_eq_true.mp hcge with ⟨op, hop, hisc⟩
  cases op with
  | complete j fp md t =>
      have hall := List.all_eq_true.mp h _ hop
      simp only at hall
      have hj : j = id := by simpa [isCompleteFor] using hisc
      subst hj
      rw [hfge] at hall
      simp at hall
  | create _ _ _ _ _ => simp [isCompleteFor] at hisc
  | setStatus _ _ => simp [isCompleteFor] at hisc
  | fail _ _ _ => simp [isCompleteFor] at hisc

/-! ## Claims -/

/-- C1 counterexample: the claim says a second terminal write on an
already-terminal job is rejected or flagged and leaves the stored record
unchanged.  On a job already `completed` (file `f.mp4`), a subsequent
`update_job_failed` silently changes the stored record: its status
becomes `failed`. -/
theorem claimC1_counterexample :
    ((Store.getJob
        (updateJobComplete (createJob [] "job1" "https://example.com/a" none none 0)
          "job1" "f.mp4" [] 5) "job1").map (·.status) = some "completed") ∧
    ((Store.getJob
        (updateJobFailed
          (updateJobComplete (createJob [] "job1" "https://example.com/a" none none 0)
            "job1" "f.mp4" [] 5) "job1" "boom" 9) "job1").map (·.status) = some "failed") := by
  decide

/-- C1 (amended): `update_job_complete` and `update_job_failed` run
their `UPDATE` unconditionally — there is no guard on the current
status, so a further terminal write on a job in any state (terminal
included) silently overwrites the record's status and terminal fields;
no rejection or flagging occurs. -/
theorem claimC1 (s : Store) (jobId fp e : String) (md : Metadata) (t t' : Int)
    (r : JobRecord) (hr : Store.getJob s jobId = some r) :
    Store.getJob (updateJobComplete s jobId fp md t) jobId
        = some { r with status := "completed", completedAt := some t,
                        filePath := some fp, metadata := md } ∧
    Store.getJob (updateJobFailed s jobId e t') jobId
        = some { r with status := "failed", completedAt := some t',
                        error := some e } := by
  rw [getJob_updateJobComplete, getJob_updateJobFailed, hr]
  exact ⟨rfl, rfl⟩

theorem claimC1_witness :
    Store.getJob
      (updateJobFailed
        [{ id := "j", url := "u", status := "completed", pageTitle := none,
           pageUrl := none, createdAt := 0, completedAt := some 5,
           filePath := some "f.mp4", fileSize := none, fileHash := none,
           metadata := [], error := none }] "j" "boom" 9) "j"
      = some { id := "j", url := "u", status := "failed", pageTitle := none,
               pageUrl := none, createdAt := 0, completedAt := some 9,
               filePath := some "f.mp4", fileSize := none, fileHash := none,
               metadata := [], error := some "boom" } :=
  (claimC1
    [{ id := "j", url := "u", status := "completed", pageTitle := none,
       pageUrl := none, createdAt := 0, completedAt := some 5,
       filePath := some "f.mp4", fileSize := none, fileHash := none,
       metadata := [], error := none }] "j" "x" "boom" [] 7 9
    { id := "j", url := "u", status := "completed", pageTitle := none,
      pageUrl := none, createdAt := 0, completedAt := some 5,
      filePath := some "f.mp4", fileSize := none, fileHash := none,
      metadata := [], error := none } rfl).2

/-- C5: the router returns the first handler in the fixed priority
order (dezoomify-rs, then gallery-dl, then yt-dlp) whose `can_handle`
predicate accepts the URL; a URL accepted by the tiled-image handler's
predicate always yields the tiled-image handler, and a URL accepted by
no predicate falls back to the general-purpose yt-dlp handler. -/
theorem claimC5 (dezInstalled galInstalled : Bool) (url : String) :
    (DezoomifyHandler.canHandle dezInstalled url = true →
        getHandler dezInstalled galInstalled url = .dezoomify) ∧
    (DezoomifyHandler.canHandle dezInstalled url = false →
      GalleryDlHandler.canHandle galInstalled url = true →
        getHandler dezInstalled galInstalled url = .galleryDl) ∧
    (DezoomifyHandler.canHandle dezInstalled url = false →
      GalleryDlHandler.canHandle galInstalled url = false →
      YtDlpHandler.canHandle url = true →
        getHandler dezInstalled galInstalled url = .ytDlp) ∧
    (DezoomifyHandler.canHandle dezInstalled url = false →
      GalleryDlHandler.canHandle galInstalled url = false →
      YtDlpHandler.canHandle url = false →
        getHandler dezInstalled galInstalled url = .ytDlp) := by
  unfold getHandler
  refine ⟨fun h1 => ?_, fun h1 h2 => ?_, fun h1 h2 h3 => ?_, fun h1 h2 h3 => ?_⟩
  · rw [if_pos h1]
  · rw [if_neg (by simp [h1]), if_pos h2]
  · rw [if_neg (by simp [h1]), if_neg (by simp [h2]), if_pos h3]
  · rw [if_neg (by simp [h1]), if_neg (by simp [h2]), if_neg (by simp [h3])]

theorem claimC5_witness :
    getHandler true true "https://artsandculture.google.com/asset/x/y" = .dezoomify :=
  (claimC5 true true "https://artsandculture.google.com/asset/x/y").1 (by decide)

/-- C6 counterexample: the claim says that when a handler's external
tool is not installed its `matches` predicate returns false
unconditionally.  `GalleryDlHandler.can_handle` performs no availability
check at all (its first argument records whether the `gallery_dl` module
is importable and is never consulted by the source predicate), so with
the tool missing it still claims a Flickr URL. -/
theorem claimC6_counterexample :
    GalleryDlHandler.canHandle false "https://www.flickr.com/photos/user/123" = true := by
  decide

/-- C6 (amended): only the tiled-image handler degrades on a missing
tool — `DezoomifyHandler.can_handle` returns false unconditionally when
`dezoomify-rs` is not on the PATH — while the gallery handler's
predicate is independent of whether its external tool is available (and
the yt-dlp handler's library is a hard import dependency of the
module). -/
theorem claimC6 :
    (∀ url, DezoomifyHandler.canHandle false url = false) ∧
    (∀ installed installed2 url,
        GalleryDlHandler.canHandle installed url
          = GalleryDlHandler.canHandle installed2 url) := by
  exact ⟨fun _ => rfl, fun _ _ _ => rfl⟩

/-- C9 counterexample: the claim says completion fields and the error
field are mutually exclusive in every reachable store state.  The state
reached by `create_job`; `update_job_complete`; `update_job_failed`
holds a record with status `failed` that still carries the result file
path written by the completion. -/
theorem claimC9_counterexample :
    (Store.getJob
      (applyOps [DbOp.create "j" "u" none none 0,
                 DbOp.complete "j" "f.mp4" [] 5,
                 DbOp.fail "j" "boom" 9] []) "j").map
        (fun r => (r.status, r.filePath))
      = some ("failed", some "f.mp4") := by
  decide

/-- C9 (amended): the exclusivity invariant holds for every history in
which `update_job_status` is used only with non-terminal statuses and
each job receives at most one terminal write (no job gets both an
`update_job_complete` and an `update_job_failed`): then every record
with status `completed` carries no error and every record with status
`failed` carries no file path.  (Neither terminal write clears the
other's field, so a second terminal write breaks the invariant, as the
counterexample shows.) -/
theorem claimC9 (ops : List DbOp) (h1 : nonTerminalStatuses ops = true)
    (h2 : atMostOneTerminalPerJob ops = true) :
    ∀ r ∈ applyOps ops [],
      (r.status = "completed" → r.error = none) ∧
      (r.status = "failed" → r.filePath = none) := by
  have hbase : StoreInv (fun _ => False) (fun _ => False) ([] : Store) := by
    intro r hr
    simp at hr
  have hinv := storeInv_applyOps ops (nonTerminal_goodOp h1) hbase
  intro r hr
  obtain ⟨i1, i2, i3, i4⟩ := hinv r hr
  constructor
  · intro hs
    have hcp : hasCompleteOp ops r.id = true := by
      rcases i3 hs with h | h
      · exact h.elim
      · exact h
    have hnf : ¬ hasFailOp ops r.id = true :=
      fun hf => atMostOne_not_both h2 r.id ⟨hcp, hf⟩
    refine i2 (fun hx => ?_)
    rcases hx with h | h
    · exact h
    · exact hnf h
  · intro hs
    have hfp : hasFailOp ops r.id = true := by
      rcases i4 hs with h | h
      · exact h.elim
      · exact h
    have hnc : ¬ hasCompleteOp ops r.id = true :=
      fun hcp2 => atMostOne_not_both h2 r.id ⟨hcp2, hfp⟩
    refine i1 (fun hx => ?_)
    rcases hx with h | h
    · exact h
    · exact hnc h

theorem claimC9_witness :
    ({ id := "j", url := "u", status := "completed", pageTitle := none,
       pageUrl := none, createdAt := 0, completedAt := some 5,
       filePath := some "f", fileSize := none, fileHash := none,
       metadata := [], error := none } : JobRecord).error = none :=
  ((claimC9 [DbOp.create "j" "u" none none 0, DbOp.complete "j" "f" [] 5]
      (by decide) (by decide)) _ (by decide)).1 rfl

/-- C3 counterexample: the claim says `ageDays` is a non-negative
integer.  `create_job` stores a caller-supplied creation timestamp
(`/archive` passes the client's `timestamp` through), so a completed
record created 2 days in the future is matched by the window query and
yields `age_days = -2`. -/
theorem claimC3_counterexample :
    (checkUrlArchived
        [{ id := "j3", url := "https://example.com/p", status := "completed",
           pageTitle := none, pageUrl := none, createdAt := 1172800,
           completedAt := some 1172900, filePath := some "f.jpg",
           fileSize := none, fileHash := none, metadata := [], error := none }]
        fsAllExist "https://example.com/p" 3 1000000).map (·.ageDays)
      = some (-2) ∧ (-2 : Int) < 0 := by
  constructor
  · decide
  · decide

/-- C3 (amended): for any record matched by `check_url_archived`, the
returned `file_exists` is the live probe of the stored file path (false
when no path is stored), `age_days` is non-negative provided the
record's creation time is not in the future (a caller-supplied future
timestamp yields a negative age), the returned record comes from the
store, and the call leaves the store unchanged. -/
theorem claimC3 (s : Store) (fs : String → Bool) (url : String) (months now : Int)
    (res : CheckResult) (h : checkUrlArchived s fs url months now = some res) :
    (∀ p, res.record.filePath = some p → res.fileExists = fs p) ∧
    (res.record.filePath = none → res.fileExists = false) ∧
    (res.record.createdAt ≤ now → 0 ≤ res.ageDays) ∧
    res.record ∈ s ∧
    (runCheckUrlArchived s fs url months now).2 = s := by
  simp only [checkUrlArchived] at h
  cases hrow : latestRow (List.filter (dedupQualifies url (now - months * 30 * 86400)) s) with
  | none =>
      rw [hrow] at h
      simp at h
  | some row =>
      rw [hrow] at h
      obtain ⟨rec, fe, ve, ad⟩ := res
      simp only [Option.some.injEq, CheckResult.mk.injEq] at h
      obtain ⟨hrec, hfe, hve, had⟩ := h
      subst hrec
      subst hfe
      subst hve
      subst had
      have hmem : row ∈ s := (List.mem_filter.mp (latestRow_mem _ _ hrow)).1
      refine ⟨?_, ?_, ?_, hmem, rfl⟩
      · intro p hp
        simp only at hp
        simp [hp]
      · intro hp
        simp only at hp
        simp [hp]
      · intro hle
        simp only at hle ⊢
        exact Int.fdiv_nonneg (by omega) (by norm_num)

theorem claimC3_witness :
    (0 : Int) ≤ ({ record := { id := "j3w", url := "https://example.com/w",
                               status := "completed", pageTitle := none,
                               pageUrl := none, createdAt := 900000,
                               completedAt := some 900100,
                               filePath := some "w.jpg", fileSize := none,
                               fileHash := none, metadata := [],
                               error := none },
                   fileExists := true, verified := true,
                   ageDays := 1 } : CheckResult).ageDays :=
  (claimC3
    [{ id := "j3w", url := "https://example.com/w", status := "completed",
       pageTitle := none, pageUrl := none, createdAt := 900000,
       completedAt := some 900100, filePath := some "w.jpg", fileSize := none,
       fileHash := none, metadata := [], error := none }]
    fsAllExist "https://example.com/w" 3 1000000
    { record := { id := "j3w", url := "https://example.com/w",
                  status := "completed", pageTitle := none, pageUrl := none,
                  createdAt := 900000, completedAt := some 900100,
                  filePath := some "w.jpg", fileSize := none,
                  fileHash := none, metadata := [], error := none },
      fileExists := true, verified := true, ageDays := 1 }
    (by decide)).2.2.1 (by decide)

/-- C4: `check_url_archived(url, months)` returns nothing exactly when
no record with that URL and status `completed` was created at or after
`now - months*30 days` (fixed 30-day months, inclusive boundary); when
it returns a result, the matched record is one of the store's
qualifying records and its creation time is maximal among them (the
most recent qualifying record). -/
theorem claimC4 (s : Store) (fs : String → Bool) (url : String) (months now : Int) :
    (checkUrlArchived s fs url months now = none
        ↔ ∀ r ∈ s, ¬(r.url = url ∧ r.status = "completed"
            ∧ now - months * 30 * 86400 ≤ r.createdAt)) ∧
    (∀ res, checkUrlArchived s fs url months now = some res →
        res.record ∈ s ∧ res.record.url = url ∧ res.record.status = "completed"
          ∧ now - months * 30 * 86400 ≤ res.record.createdAt
          ∧ ∀ r ∈ s, r.url = url → r.status = "completed"
              → now - months * 30 * 86400 ≤ r.createdAt
              → r.createdAt ≤ res.record.createdAt) := by
  constructor
  · constructor
    · intro hnone r hr hq
      simp only [checkUrlArchived] at hnone
      cases hrow : latestRow (List.filter (dedupQualifies url (now - months * 30 * 86400)) s) with
      | none =>
          have hfil : List.filter (dedupQualifies url (now - months * 30 * 86400)) s = [] :=
            (latestRow_eq_none_iff _).mp hrow
          exact List.filter_eq_nil_iff.mp hfil r hr ((dedupQualifies_iff _ _ _).mpr hq)
      | some row =>
          rw [hrow] at hnone
          simp at hnone
    · intro hall
      simp only [checkUrlArchived]
      cases hrow : latestRow (List.filter (dedupQualifies url (now - months * 30 * 86400)) s) with
      | none => rfl
      | some row =>
          exfalso
          have hmem := latestRow_mem _ _ hrow
          exact hall row (List.mem_filter.mp hmem).1
            ((dedupQualifies_iff _ _ _).mp (List.mem_filter.mp hmem).2)
  · intro res h
    simp only [checkUrlArchived] at h
    cases hrow : latestRow (List.filter (dedupQualifies url (now - months * 30 * 86400)) s) with
    | none =>
        rw [hrow] at h
        simp at h
    | some row =>
        rw [hrow] at h
        simp only [Option.some.injEq] at h
        subst h
        have hmem := latestRow_mem _ _ hrow
        have hmem_s := (List.mem_filter.mp hmem).1
        have hq := (dedupQualifies_iff _ _ _).mp (List.mem_filter.mp hmem).2
        refine ⟨hmem_s, hq.1, hq.2.1, hq.2.2, ?_⟩
        intro r hr hu hst hcr
        exact latestRow_le _ _ hrow r
          (List.mem_filter.mpr ⟨hr, (dedupQualifies_iff _ _ _).mpr ⟨hu, hst, hcr⟩⟩)

theorem claimC4_witness :
    ({ id := "jb", url := "https://example.com/b", status := "completed",
       pageTitle := none, pageUrl := none, createdAt := 2224000,
       completedAt := some 2224100, filePath := none, fileSize := none,
       fileHash := none, metadata := [], error := none } : JobRecord)
      ∈ ([{ id := "jb", url := "https://example.com/b", status := "completed",
            pageTitle := none, pageUrl := none, createdAt := 2224000,
            completedAt := some 2224100, filePath := none, fileSize := none,
            fileHash := none, metadata := [], error := none }] : Store) :=
  ((claimC4
      [{ id := "jb", url := "https://example.com/b", status := "completed",
         pageTitle := none, pageUrl := none, createdAt := 2224000,
         completedAt := some 2224100, filePath := none, fileSize := none,
         fileHash := none, metadata := [], error := none }]
      fsNoneExist "https://example.com/b" 3 10000000).2
    { record := { id := "jb", url := "https://example.com/b",
                  status := "completed", pageTitle := none, pageUrl := none,
                  createdAt := 2224000, completedAt := some 2224100,
                  filePath := none, fileSize := none, fileHash := none,
                  metadata := [], error := none },
      fileExists := false, verified := false, ageDays := 90 }
    (by decide)).1

theorem length_filterMap_isSome {α β : Type} (f : α → Option β) (l : List α) :
    (List.filterMap f l).length = List.countP (fun a => (f a).isSome) l := by
  induction l with
  | nil => rfl
  | cons a l ih =>
      cases hf : f a <;> simp [List.filterMap_cons, hf, List.countP_cons, ih]

theorem downloadTwitterImages_length (imageUrls : List String)
    (fetch : Nat → Option String) (basename : String) :
    (downloadTwitterImages imageUrls fetch basename).length
      = List.countP (fun k => (fetch (k + 1)).isSome) (List.range imageUrls.length) := by
  unfold downloadTwitterImages
  rw [length_filterMap_isSome]
  apply List.countP_congr
  intro k _
  simp

theorem downloadTwitterImages_eq_nil_iff (imageUrls : List String)
    (fetch : Nat → Option String) (basename : String) :
    downloadTwitterImages imageUrls fetch basename = []
      ↔ ∀ k < imageUrls.length, fetch (k + 1) = none := by
  unfold downloadTwitterImages
  rw [List.filterMap_eq_nil_iff]
  constructor
  · intro h k hk
    have h2 := h k (List.mem_range.mpr hk)
    cases hf : fetch (k + 1) with
    | none => rfl
    | some ct => rw [hf] at h2; simp at h2
  · intro h k hk
    rw [h k (List.mem_range.mp hk)]
    rfl

/-- C2 counterexample: the claim says an error during finalization
(writing the index entry) after a successful completion write leaves the
job `completed` and is only logged.  `append_to_index` is called inside
the orchestrator's `try`, so when it raises, the outer `except` calls
`update_job_failed`: the concrete run below ends with the job's status
`failed` (the completion's `file_path` column survives only because
`update_job_failed` does not clear it). -/
theorem claimC2_counterexample :
    (Store.getJob
      (processRoutedBranch (createJob [] "job2" "https://example.com/v" none none 0)
        "job2" "https://example.com/v" "2024-05-01-1200-web-video" "Untitled" "web"
        "yt-dlp" "2024-05-01T12:00:00" SaveMode.quick false
        { filePath := some "2024-05-01-1200-web-video.mp4", metadata := [],
          success := true, error := none }
        none none (some "disk full") 10) "job2").map (fun r => (r.status, r.filePath))
      = some ("failed", some "2024-05-01-1200-web-video.mp4") := by
  decide

/-- C2 (amended): when the index append raises after the completion
write, the orchestrator's outer exception handler marks the job
`failed` with the finalization error — the status does flip from
`completed` to `failed` — while the file path written by the completion
(and the downloaded file itself) are not erased: the record keeps
`file_path` alongside the new error. -/
theorem claimC2 (s : Store) (jobId url basename title0 platform handlerName downloadDate : String)
    (saveMode : SaveMode) (hasScreenshot : Bool) (result : DownloadResult)
    (fp e : String) (now : Int) (r : JobRecord)
    (hr : Store.getJob s jobId = some r) (hfp : result.filePath = some fp) :
    Store.getJob (processRoutedBranch s jobId url basename title0 platform handlerName
        downloadDate saveMode hasScreenshot result none none (some e) now) jobId
      = some { r with status := "failed", completedAt := some now,
                      filePath := some fp,
                      metadata := metaMerge
                        (routedBaseMetadata url downloadDate handlerName
                          saveMode (titleFromResult result.metadata title0) platform)
                        result.metadata,
                      error := some e } := by
  have hs' : processRoutedBranch s jobId url basename title0 platform handlerName
      downloadDate saveMode hasScreenshot result none none (some e) now
      = updateJobFailed
          (updateJobComplete (updateJobStatus s jobId "downloading") jobId fp
            (metaMerge (routedBaseMetadata url downloadDate handlerName saveMode
                (titleFromResult result.metadata title0) platform) result.metadata) now)
          jobId e now := by
    unfold processRoutedBranch
    rw [hfp]
    simp [Bool.and_false]
  rw [hs', getJob_updateJobFailed, getJob_updateJobComplete, getJob_updateJobStatus, hr]
  rfl

theorem claimC2_witness :
    Store.getJob (processRoutedBranch
        [{ id := "jw2", url := "https://example.com/w2", status := "pending",
           pageTitle := none, pageUrl := none, createdAt := 0, completedAt := none,
           filePath := none, fileSize := none, fileHash := none, metadata := [],
           error := none }]
        "jw2" "https://example.com/w2" "base" "Untitled" "web" "yt-dlp" "2024-05-02"
        SaveMode.quick false
        { filePath := some "clip.mp4", metadata := [], success := true, error := none }
        none none (some "index boom") 20) "jw2"
      = some { id := "jw2", url := "https://example.com/w2", status := "failed",
               pageTitle := none, pageUrl := none, createdAt := 0,
               completedAt := some 20, filePath := some "clip.mp4",
               fileSize := none, fileHash := none,
               metadata := metaMerge (routedBaseMetadata "https://example.com/w2"
                   "2024-05-02" "yt-dlp" SaveMode.quick
                   (titleFromResult [] "Untitled") "web") [],
               error := some "index boom" } :=
  claimC2
    [{ id := "jw2", url := "https://example.com/w2", status := "pending",
       pageTitle := none, pageUrl := none, createdAt := 0, completedAt := none,
       filePath := none, fileSize := none, fileHash := none, metadata := [],
       error := none }]
    "jw2" "https://example.com/w2" "base" "Untitled" "web" "yt-dlp" "2024-05-02"
    SaveMode.quick false
    { filePath := some "clip.mp4", metadata := [], success := true, error := none }
    "clip.mp4" "index boom" 20
    { id := "jw2", url := "https://example.com/w2", status := "pending",
      pageTitle := none, pageUrl := none, createdAt := 0, completedAt := none,
      filePath := none, fileSize := none, fileHash := none, metadata := [],
      error := none }
    rfl rfl

/-- C7: in the direct-fetch Twitter image branch (with the finalization
writes succeeding), each image fetch failure only removes that image
from the downloaded list — the number of files equals the number of
successful fetches — and the job ends `failed` exactly when every fetch
failed; one successful image suffices for the job to complete. -/
theorem claimC7 (s : Store) (jobId url basename title platform downloadDate : String)
    (saveMode : SaveMode) (imageUrls : List String) (fetch : Nat → Option String)
    (now : Int) (r : JobRecord) (hr : Store.getJob s jobId = some r) :
    ((Store.getJob (processTwitterImageBranch s jobId url basename title platform
          downloadDate saveMode imageUrls fetch none none now) jobId).map (·.status)
        = some "failed"
      ↔ ∀ k < imageUrls.length, fetch (k + 1) = none) ∧
    ((∃ k, k < imageUrls.length ∧ (fetch (k + 1)).isSome = true) →
      (Store.getJob (processTwitterImageBranch s jobId url basename title platform
          downloadDate saveMode imageUrls fetch none none now) jobId).map (·.status)
        = some "completed") ∧
    (downloadTwitterImages imageUrls fetch basename).length
      = List.countP (fun k => (fetch (k + 1)).isSome) (List.range imageUrls.length) := by
  cases hfe : downloadTwitterImages imageUrls fetch basename with
  | nil =>
      have hall : ∀ k < imageUrls.length, fetch (k + 1) = none :=
        (downloadTwitterImages_eq_nil_iff imageUrls fetch basename).mp hfe
      have hs' : processTwitterImageBranch s jobId url basename title platform
          downloadDate saveMode imageUrls fetch none none now
          = updateJobFailed (updateJobStatus s jobId "downloading") jobId
              "Failed to download Twitter images" now := by
        unfold processTwitterImageBranch
        rw [hfe]
      have hstat : (Store.getJob (processTwitterImageBranch s jobId url basename title
          platform downloadDate saveMode imageUrls fetch none none now) jobId).map (·.status)
          = some "failed" := by
        rw [hs', getJob_updateJobFailed, getJob_updateJobStatus, hr]
        rfl
      refine ⟨iff_of_true hstat hall, ?_,
        by rw [← hfe]; exact downloadTwitterImages_length imageUrls fetch basename⟩
      rintro ⟨k, hk, hsome⟩
      rw [hall k hk] at hsome
      simp at hsome
  | cons f0 rest =>
      have hs' : processTwitterImageBranch s jobId url basename title platform
          downloadDate saveMode imageUrls fetch none none now
          = updateJobComplete (updateJobStatus s jobId "downloading") jobId f0
              (twitterImageMetadata url downloadDate saveMode title platform (f0 :: rest))
              now := by
        unfold processTwitterImageBranch
        rw [hfe]
        simp [Bool.and_false]
      have hstat : (Store.getJob (processTwitterImageBranch s jobId url basename title
          platform downloadDate saveMode imageUrls fetch none none now) jobId).map (·.status)
          = some "completed" := by
        rw [hs', getJob_updateJobComplete, getJob_updateJobStatus, hr]
        rfl
      refine ⟨?_, fun _ => hstat,
        by rw [← hfe]; exact downloadTwitterImages_length imageUrls fetch basename⟩
      apply iff_of_false
      · rw [hstat]
        decide
      · intro hall
        rw [(downloadTwitterImages_eq_nil_iff imageUrls fetch basename).mpr hall] at hfe
        simp at hfe

theorem claimC7_witness :
    (Store.getJob (processTwitterImageBranch
        [{ id := "jw7", url := "https://x.com/u/status/1", status := "pending",
           pageTitle := none, pageUrl := none, createdAt := 0, completedAt := none,
           filePath := none, fileSize := none, fileHash := none, metadata := [],
           error := none }]
        "jw7" "https://x.com/u/status/1" "2024-01-02-twitter-post" "post" "twitter"
        "2024-01-02" SaveMode.quick ["a", "b", "c"] fetchSecondImageDown
        none none 30) "jw7").map (·.status) = some "completed" :=
  (claimC7
    [{ id := "jw7", url := "https://x.com/u/status/1", status := "pending",
       pageTitle := none, pageUrl := none, createdAt := 0, completedAt := none,
       filePath := none, fileSize := none, fileHash := none, metadata := [],
       error := none }]
    "jw7" "https://x.com/u/status/1" "2024-01-02-twitter-post" "post" "twitter"
    "2024-01-02" SaveMode.quick ["a", "b", "c"] fetchSecondImageDown 30
    { id := "jw7", url := "https://x.com/u/status/1", status := "pending",
      pageTitle := none, pageUrl := none, createdAt := 0, completedAt := none,
      filePath := none, fileSize := none, fileHash := none, metadata := [],
      error := none }
    rfl).2.1 ⟨0, by decide, by decide⟩

/-- C8: when the yt-dlp download body raises but non-empty media files
are discoverable in the output directory, the handler reports success
with the newest such file, and the routed branch completes the job with
that recovered file; the job's merged metadata records the handler's
error under the `error_note` key rather than the content being
discarded. -/
theorem claimC8 (s : Store) (jobId url basename title0 platform downloadDate : String)
    (saveMode : SaveMode) (hasScreenshot : Bool) (e : String)
    (f0 : DiskFile) (rest : List DiskFile) (now : Int) (r : JobRecord)
    (hr : Store.getJob s jobId = some r) :
    ((Store.getJob (processRoutedBranch s jobId url basename title0 platform "yt-dlp"
        downloadDate saveMode hasScreenshot (ytdlpDownload (Except.error e) (f0 :: rest))
        none none none now) jobId).map (·.status) = some "completed") ∧
    ((Store.getJob (processRoutedBranch s jobId url basename title0 platform "yt-dlp"
        downloadDate saveMode hasScreenshot (ytdlpDownload (Except.error e) (f0 :: rest))
        none none none now) jobId).map (·.filePath)
      = some (some (newestFile f0 rest).path)) ∧
    ((Store.getJob (processRoutedBranch s jobId url basename title0 platform "yt-dlp"
        downloadDate saveMode hasScreenshot (ytdlpDownload (Except.error e) (f0 :: rest))
        none none none now) jobId).map (fun rec => rec.metadata.getVal "error_note")
      = some (some (.str e))) := by
  have hres : ytdlpDownload (Except.error e) (f0 :: rest)
      = { filePath := some (newestFile f0 rest).path,
          metadata := [("title", .str (pyStem (newestFile f0 rest).path)),
                       ("error_note", .str e)],
          success := true, error := none } := rfl
  have hs' : processRoutedBranch s jobId url basename title0 platform "yt-dlp"
      downloadDate saveMode hasScreenshot (ytdlpDownload (Except.error e) (f0 :: rest))
      none none none now
      = updateJobComplete (updateJobStatus s jobId "downloading") jobId
          (newestFile f0 rest).path
          (metaMerge (routedBaseMetadata url downloadDate "yt-dlp" saveMode
              (titleFromResult [("title", .str (pyStem (newestFile f0 rest).path)),
                                ("error_note", .str e)] title0) platform)
            [("title", .str (pyStem (newestFile f0 rest).path)),
             ("error_note", .str e)]) now := by
    rw [hres]
    unfold processRoutedBranch
    simp [Bool.and_false]
  rw [hs', getJob_updateJobComplete, getJob_updateJobStatus, hr]
  refine ⟨rfl, rfl, ?_⟩
  exact congrArg some (getVal_metaMerge_of_mem _ _ _ _ rfl)

theorem claimC8_witness :
    (Store.getJob (processRoutedBranch
        [{ id := "jw8", url := "https://example.com/v8", status := "pending",
           pageTitle := none, pageUrl := none, createdAt := 0, completedAt := none,
           filePath := none, fileSize := none, fileHash := none, metadata := [],
           error := none }]
        "jw8" "https://example.com/v8" "base" "Untitled" "web" "yt-dlp" "2024-06-01"
        SaveMode.quick false
        (ytdlpDownload (Except.error "postprocess fail")
          [{ path := "old.mp4", mtime := 4 }, { path := "new.mp4", mtime := 9 }])
        none none none 40) "jw8").map (·.status) = some "completed" :=
  (claimC8
    [{ id := "jw8", url := "https://example.com/v8", status := "pending",
       pageTitle := none, pageUrl := none, createdAt := 0, completedAt := none,
       filePath := none, fileSize := none, fileHash := none, metadata := [],
       error := none }]
    "jw8" "https://example.com/v8" "base" "Untitled" "web" "2024-06-01"
    SaveMode.quick false "postprocess fail"
    { path := "old.mp4", mtime := 4 } [{ path := "new.mp4", mtime := 9 }] 40
    { id := "jw8", url := "https://example.com/v8", status := "pending",
      pageTitle := none, pageUrl := none, createdAt := 0, completedAt := none,
      filePath := none, fileSize := none, fileHash := none, metadata := [],
      error := none }
    rfl).1

/-- C10: in the direct-fetch Twitter image branch, when more than one
image is downloaded the completed record's `file_path` holds only the
first downloaded image's path, while the full list of downloaded paths
is stored in the metadata under `files` and `media_count` holds the
number of downloaded files. -/
theorem claimC10 (s : Store) (jobId url basename title platform downloadDate : String)
    (saveMode : SaveMode) (imageUrls : List String) (fetch : Nat → Option String)
    (now : Int) (r : JobRecord) (f0 f1 : String) (rest : List String)
    (hr : Store.getJob s jobId = some r)
    (hfiles : downloadTwitterImages imageUrls fetch basename = f0 :: f1 :: rest) :
    ((Store.getJob (processTwitterImageBranch s jobId url basename title platform
        downloadDate saveMode imageUrls fetch none none now) jobId).map (·.filePath)
      = some (some f0)) ∧
    ((Store.getJob (processTwitterImageBranch s jobId url basename title platform
        downloadDate saveMode imageUrls fetch none none now) jobId).map
          (fun rec => rec.metadata.getVal "files")
      = some (some (.strList (f0 :: f1 :: rest)))) ∧
    ((Store.getJob (processTwitterImageBranch s jobId url basename title platform
        downloadDate saveMode imageUrls fetch none none now) jobId).map
          (fun rec => rec.metadata.getVal "media_count")
      = some (some (.int (f0 :: f1 :: rest).length))) := by
  have hs' : processTwitterImageBranch s jobId url basename title platform
      downloadDate saveMode imageUrls fetch none none now
      = updateJobComplete (updateJobStatus s jobId "downloading") jobId f0
          (twitterImageMetadata url downloadDate saveMode title platform
            (f0 :: f1 :: rest)) now := by
    unfold processTwitterImageBranch
    rw [hfiles]
    simp [Bool.and_false]
  rw [hs', getJob_updateJobComplete, getJob_updateJobStatus, hr]
  exact ⟨rfl, rfl, rfl⟩

theorem claimC10_witness :
    (Store.getJob (processTwitterImageBranch
        [{ id := "jw10", url := "https://x.com/u/status/2", status := "pending",
           pageTitle := none, pageUrl := none, createdAt := 0, completedAt := none,
           filePath := none, fileSize := none, fileHash := none, metadata := [],
           error := none }]
        "jw10" "https://x.com/u/status/2" "2024-01-03-twitter-post" "post" "twitter"
        "2024-01-03" SaveMode.quick ["a", "b", "c"] fetchSecondImageDown
        none none 50) "jw10").map (·.filePath)
      = some (some "2024-01-03-twitter-post-1.jpg") :=
  (claimC10
    [{ id := "jw10", url := "https://x.com/u/status/2", status := "pending",
       pageTitle := none, pageUrl := none, createdAt := 0, completedAt := none,
       filePath := none, fileSize := none, fileHash := none, metadata := [],
       error := none }]
    "jw10" "https://x.com/u/status/2" "2024-01-03-twitter-post" "post" "twitter"
    "2024-01-03" SaveMode.quick ["a", "b", "c"] fetchSecondImageDown 50
    { id := "jw10", url := "https://x.com/u/status/2", status := "pending",
      pageTitle := none, pageUrl := none, createdAt := 0, completedAt := none,
      filePath := none, fileSize := none, fileHash := none, metadata := [],
      error := none }
    "2024-01-03-twitter-post-1.jpg" "2024-01-03-twitter-post-3.jpg" []
    rfl (by decide)).1
